import Mathlib

/-!
Verification development for the SMS dispatch and history-tracking service
(`server.js`).  The definitions below are a shallow embedding of the parts of
the source the claims touch: the `POST /api/sms/send` handler with its
per-number loop, the dispatch stub `sendSMSCommand`, the `DELETE
/api/models/:id` handler, and the `GET /api/sms/history` handler — both its
dynamic WHERE-clause builder (at the SQL-string level) and its relational
semantics (filtering, sorting, pagination over the `sms_history` table).
Randomness (`Math.random`), clock reads (`Date.now`, `NOW()`) and per-statement
database failures are threaded explicitly through an environment record.
-/

set_option maxHeartbeats 1000000

namespace SmsApp

/-- ASCII whitespace as stripped by `String.prototype.trim` on the inputs this
service handles. -/
def isJsSpace (c : Char) : Bool := c = ' ' || c = '\t' || c = '\n' || c = '\r'

/-- `String.prototype.trim`: strip leading and trailing whitespace. -/
def jsTrim (s : String) : String :=
  ⟨((s.data.dropWhile isJsSpace).reverse.dropWhile isJsSpace).reverse⟩

/-- Character class of the phone-validation regex `[\d\+\-\(\)\s]`. -/
def isPhoneChar (c : Char) : Bool :=
  c.isDigit || c = '+' || c = '-' || c = '(' || c = ')' || isJsSpace c

/-- `phoneRegex.test(x)` for `phoneRegex = /^[\d\+\-\(\)\s]{10,20}$/`
(`POST /api/sms/send`). -/
def phoneTest (s : String) : Bool :=
  decide (10 ≤ s.data.length) && decide (s.data.length ≤ 20) && s.data.all isPhoneChar

/-- Lower-cased character code, for the semantics of SQL `ILIKE`. -/
def lowerN (c : Char) : Nat :=
  if 65 ≤ c.toNat ∧ c.toNat ≤ 90 then c.toNat + 32 else c.toNat

/-- Does `needle` start `hay`? -/
def leadsChars [DecidableEq α] : List α → List α → Bool
  | [], _ => true
  | _ :: _, [] => false
  | a :: as, b :: bs => a = b && leadsChars as bs

/-- Does `needle` occur contiguously inside `hay`? -/
def occursIn [DecidableEq α] (needle : List α) : List α → Bool
  | [] => needle.isEmpty
  | b :: bs => leadsChars needle (b :: bs) || occursIn needle bs

/-- Semantics of `hay ILIKE '%' || pat || '%'`: case-insensitive substring. -/
def containsCI (hay pat : String) : Bool :=
  occursIn (pat.data.map lowerN) (hay.data.map lowerN)

/-- JavaScript truthiness of an optional string (`undefined` and `""` are
falsy), as used by `x || null` and by the `if (filter)` guards of the history
endpoint. -/
def truthy : Option String → Option String
  | none => none
  | some s => if s = "" then none else some s

/-- A JSON array element as the send handler sees it: a string, or a non-string
value (number, null, ...) on which calling `.trim()` throws a TypeError. -/
inductive JsVal where
  | str (s : String)
  | nonStr (tag : String)
deriving DecidableEq

/-- One row of `device_models` (the columns the claims read). -/
structure DeviceModel where
  id : Nat
  name : String
deriving DecidableEq

/-- One row of `commands` (the columns the claims read). -/
structure Command where
  id : Nat
  model_id : Nat
  command_text : String
deriving DecidableEq

/-- Result record of the dispatch stub `sendSMSCommand`.  The simulated-cost
field of the success record is a floating-point literal no caller ever reads
and is not modelled. -/
structure SmsResult where
  success : Bool
  details : String
  messageId : Option String
  errorCode : Option String
deriving DecidableEq

/-- `sendSMSCommand(phoneNumber, command, modelName)`: `draw` is the random
draw `Math.random() > 0.1` and `seed` the `Date.now()`/random suffix of the
generated message id.  The source's `catch` branch is unreachable (nothing in
its `try` body can throw), so the stub always returns one of these two
records. -/
def sendSMSCommand (draw : Bool) (seed : String)
    (phoneNumber command modelName : String) : SmsResult :=
  if draw then
    { success := true
      details := "Command \"" ++ command ++ "\" sent successfully to " ++ modelName ++ " device"
      messageId := some ("msg_" ++ seed)
      errorCode := none }
  else
    { success := false
      details := "SMS delivery failed - network error"
      messageId := none
      errorCode := some "NETWORK_ERROR" }

/-- One row of `sms_history`.  `model_id` is a nullable foreign key;
`response_data` stores the dispatch record itself, modelling the
`JSON.stringify(smsResult)` JSONB payload; `sent_at` is an abstract
timestamp. -/
structure HistoryRow where
  id : Nat
  phone_number : String
  model_id : Option Nat
  command_text : String
  status : String
  sent_at : Int
  details : Option String
  notes : Option String
  response_data : SmsResult
deriving DecidableEq

/-- The database state the claims touch. -/
structure Db where
  models : List DeviceModel
  commands : List Command
  history : List HistoryRow
deriving DecidableEq

/-- Body of `POST /api/sms/send`. -/
structure SendReq where
  phoneNumbers : List JsVal
  modelId : Option Nat
  commandText : String
  notes : Option String

/-- Per-request environment for the send loop, indexed by the position of the
phone number in the batch: the random draw consumed by the dispatch stub, the
generated message-id seed, the `NOW()` timestamp of the insert, and whether
`pool.query` throws for that number (`some msg` = the thrown error's
message). -/
structure SendEnv where
  dispatchOk : Nat → Bool
  msgSeed : Nat → String
  sentAt : Nat → Int
  insertErr : Nat → Option String

/-- `phoneNumbers.filter(phone => !phoneRegex.test(phone.trim()))`: collects the
original (untrimmed) elements failing the pattern; calling `.trim()` on a
non-string element throws a TypeError, which propagates out of the filter to
the handler's outer catch. -/
def collectInvalid : List JsVal → Except String (List String)
  | [] => .ok []
  | .nonStr _ :: _ => .error "phone.trim is not a function"
  | .str s :: ps =>
    (collectInvalid ps).map (fun rest => if phoneTest (jsTrim s) then rest else s :: rest)

/-- One element of the `results` array of the send response. -/
structure ResultEntry where
  phone : String
  status : String
  id : Nat
  details : String
deriving DecidableEq

/-- One element of the `errors` array of the send response. -/
structure ErrEntry where
  phone : String
  error : String
deriving DecidableEq

/-- Accumulated outcome of the per-phone-number loop. -/
structure LoopOut where
  results : List ResultEntry
  errors : List ErrEntry
  rows : List HistoryRow
  dispatched : List String
deriving DecidableEq

/-- The `for (const phone of phoneNumbers)` loop of `POST /api/sms/send`: trim,
dispatch, then insert one `sms_history` row; a throw while inserting for one
number is caught and recorded as a per-number error entry, and the loop
continues.  For a non-string element the catch block's own `phone.trim()`
throws again, propagating to the outer handler (`.error`).  `i` is the batch
position, `nid` the next serial row id. -/
def processLoop (env : SendEnv) (mid : Nat) (cmdRaw : String) (notes : Option String)
    (mname : String) : Nat → Nat → List JsVal → Except String LoopOut
  | _, _, [] => .ok ⟨[], [], [], []⟩
  | _, _, .nonStr _ :: _ => .error "phone.trim is not a function"
  | i, nid, .str s :: ps =>
    let clean := jsTrim s
    let sres := sendSMSCommand (env.dispatchOk i) (env.msgSeed i) clean cmdRaw mname
    match env.insertErr i with
    | some msg =>
      (processLoop env mid cmdRaw notes mname (i+1) nid ps).map
        (fun o => ⟨o.results, ⟨clean, msg⟩ :: o.errors, o.rows, clean :: o.dispatched⟩)
    | none =>
      let st := if sres.success then "sent" else "failed"
      let row : HistoryRow :=
        { id := nid, phone_number := clean, model_id := some mid
          command_text := jsTrim cmdRaw, status := st, sent_at := env.sentAt i
          details := truthy (some sres.details), notes := truthy notes
          response_data := sres }
      (processLoop env mid cmdRaw notes mname (i+1) (nid+1) ps).map
        (fun o => ⟨⟨clean, st, nid, sres.details⟩ :: o.results, o.errors, row :: o.rows,
                   clean :: o.dispatched⟩)

/-- JSON response of `POST /api/sms/send` (the fields the claims read). -/
inductive SendResp where
  | badRequest (error : String) (invalidPhones : Option (List String))
  | notFound (error : String)
  | okResp (total sent failed : Nat) (results : List ResultEntry) (errors : List ErrEntry)
  | internal (error : String)
deriving DecidableEq

/-- HTTP status attached to each send response shape by the handler. -/
def SendResp.statusCode : SendResp → Nat
  | .badRequest _ _ => 400
  | .notFound _ => 404
  | .okResp _ _ _ _ _ => 200
  | .internal _ => 500

/-- Projections of the success response, for stating claims. -/
def SendResp.resultsOf : SendResp → Option (List ResultEntry)
  | .okResp _ _ _ rs _ => some rs
  | _ => none

def SendResp.errorsOf : SendResp → Option (List ErrEntry)
  | .okResp _ _ _ _ es => some es
  | _ => none

def SendResp.summaryOf : SendResp → Option (Nat × Nat × Nat)
  | .okResp t s f _ _ => some (t, s, f)
  | _ => none

/-- What one call of the send handler produces: the JSON response, the
database state afterwards, and the trace of phone numbers actually handed to
the dispatch stub. -/
structure SendOut where
  resp : SendResp
  db : Db
  dispatched : List String
deriving DecidableEq

/-- The `POST /api/sms/send` handler.  Guards in source order: non-empty
phone-number array; truthy model id and non-blank command text; regex
validation of every number (throwing inside the filter falls to the outer
catch, a 500); all-or-nothing rejection listing the invalid numbers; model
resolution; then the per-number loop.  New rows are appended to
`sms_history`; serial ids continue from the current row count. -/
def sendHandler (db : Db) (env : SendEnv) (req : SendReq) : SendOut :=
  if req.phoneNumbers.isEmpty then
    ⟨.badRequest "Phone numbers array is required" none, db, []⟩
  else
    match req.modelId with
    | none => ⟨.badRequest "Model ID and command text are required" none, db, []⟩
    | some mid =>
      if mid = 0 || jsTrim req.commandText = "" then
        ⟨.badRequest "Model ID and command text are required" none, db, []⟩
      else
        match collectInvalid req.phoneNumbers with
        | .error e => ⟨.internal e, db, []⟩
        | .ok invalid =>
          if !invalid.isEmpty then
            ⟨.badRequest "Invalid phone numbers detected" (some invalid), db, []⟩
          else
            match db.models.find? (fun m => m.id = mid) with
            | none => ⟨.notFound "Model not found", db, []⟩
            | some m =>
              match processLoop env mid req.commandText req.notes m.name 0
                  db.history.length req.phoneNumbers with
              | .error e => ⟨.internal e, db, []⟩
              | .ok o =>
                let sent := (o.results.filter (fun r => r.status = "sent")).length
                let failed := (o.results.filter (fun r => r.status = "failed")).length
                    + o.errors.length
                ⟨.okResp req.phoneNumbers.length sent failed o.results o.errors,
                 { db with history := db.history ++ o.rows }, o.dispatched⟩

/-- JSON response of `DELETE /api/models/:id`. -/
inductive DelResp where
  | conflict (error : String)
  | notFound (error : String)
  | okResp (deleted : DeviceModel)
deriving DecidableEq

/-- HTTP status attached to each delete response shape. -/
def DelResp.statusCode : DelResp → Nat
  | .conflict _ => 409
  | .notFound _ => 404
  | .okResp _ => 200

/-- The error message of a delete response (empty on success). -/
def DelResp.errText : DelResp → String
  | .conflict e => e
  | .notFound e => e
  | .okResp _ => ""

/-- The `DELETE /api/models/:id` handler: count the commands referencing the
model; any reference yields a 409 naming the count and leaves the store
untouched; otherwise delete the row, answering 404 when nothing was
deleted. -/
def deleteModel (db : Db) (id : Nat) : DelResp × Db :=
  let cnt := (db.commands.filter (fun c => c.model_id = id)).length
  if 0 < cnt then
    (.conflict ("Cannot delete model. It has " ++ toString cnt ++ " associated commands."),
     db)
  else
    match db.models.find? (fun m => m.id = id) with
    | none => (.notFound "Model not found", db)
    | some m => (.okResp m, { db with models := db.models.filter (fun x => !(x.id = id)) })

/-- Referential integrity of the store as the schema enforces it: every
command's `model_id` resolves to an existing device model. -/
def Db.wf (db : Db) : Prop :=
  ∀ c ∈ db.commands, ∃ m ∈ db.models, m.id = c.model_id

/-! ### History endpoint: SQL-string level (WHERE-clause builder) -/

/-- The six optional filters of `GET /api/sms/history`, as the raw query-string
values the handler destructures. -/
structure HFilters where
  status : Option String
  modelId : Option String
  phoneNumber : Option String
  dateFrom : Option String
  dateTo : Option String
  search : Option String

/-- Tags for the six filter kinds, in source order. -/
inductive FilterKind where
  | status | modelId | phoneNumber | dateFrom | dateTo | search
deriving DecidableEq

/-- The SQL fragment pushed onto `conditions` for one supplied filter, with its
1-based positional-parameter index — string literals from the source. -/
def clauseFor : FilterKind → Nat → String
  | .status, i => "h.status = $" ++ toString i
  | .modelId, i => "h.model_id = $" ++ toString i
  | .phoneNumber, i => "h.phone_number ILIKE $" ++ toString i
  | .dateFrom, i => "h.sent_at >= $" ++ toString i
  | .dateTo, i => "h.sent_at <= $" ++ toString i
  | .search, i =>
      "(h.command_text ILIKE $" ++ toString i ++ " OR h.notes ILIKE $" ++ toString i ++
        " OR m.name ILIKE $" ++ toString i ++ ")"

/-- The value pushed onto `params` for one supplied filter (`phoneNumber` and
`search` are wrapped in `%`). -/
def paramFor : FilterKind → String → String
  | .phoneNumber, v => "%" ++ v ++ "%"
  | .search, v => "%" ++ v ++ "%"
  | .status, v => v
  | .modelId, v => v
  | .dateFrom, v => v
  | .dateTo, v => v

/-- State of the builder: `conditions`, `params`, `paramCount`. -/
structure WhereState where
  conds : List String
  params : List String
  n : Nat
deriving DecidableEq

/-- One `if (filter) { paramCount++; conditions.push(...); params.push(...) }`
block from the source. -/
def pushFilter (k : FilterKind) (v : Option String) (st : WhereState) : WhereState :=
  match truthy v with
  | some val => ⟨st.conds ++ [clauseFor k (st.n + 1)], st.params ++ [paramFor k val], st.n + 1⟩
  | none => st

/-- The six filter checks in the order the source performs them. -/
def filtersInOrder (f : HFilters) : List (FilterKind × Option String) :=
  [(.status, f.status), (.modelId, f.modelId), (.phoneNumber, f.phoneNumber),
   (.dateFrom, f.dateFrom), (.dateTo, f.dateTo), (.search, f.search)]

def pushAll : List (FilterKind × Option String) → WhereState → WhereState
  | [], st => st
  | (k, v) :: rest, st => pushAll rest (pushFilter k v st)

/-- The dynamic WHERE-clause builder of `GET /api/sms/history`: conditions and
positional parameters accumulated over the six optional filters in source
order, joined with AND.  Returns (whereClause, params, paramCount). -/
def buildWhere (f : HFilters) : String × List String × Nat :=
  let st := pushAll (filtersInOrder f) ⟨[], [], 0⟩
  (if 0 < st.conds.length then "WHERE " ++ String.intercalate " AND " st.conds else "",
   st.params, st.n)

/-- Pair each list element with its position, starting at `i`. -/
def withIdx (i : Nat) : List α → List (Nat × α)
  | [] => []
  | a :: as => (i, a) :: withIdx (i+1) as

/-- Modelled from the spec: "AND-ing only the filters actually supplied, using
positional parameters" — the filters actually supplied (truthy), in source
order, paired with their values. -/
def supplied (f : HFilters) : List (FilterKind × String) :=
  (filtersInOrder f).filterMap (fun kv => (truthy kv.2).map (fun v => (kv.1, v)))

/-- Modelled from the spec: the clause list is exactly one clause per supplied
filter, its positional index being the filter's 1-based position. -/
def specConds (f : HFilters) : List String :=
  (withIdx 1 (supplied f)).map (fun p => clauseFor p.2.1 p.1)

/-- Modelled from the spec: the parameter list is exactly the supplied values,
in the same order as the clauses. -/
def specParams (f : HFilters) : List String :=
  (supplied f).map (fun p => paramFor p.1 p.2)

/-! ### History endpoint: relational semantics -/

/-- The six filters with their database-level meanings (`modelId` as an
integer, the date bounds as timestamps). -/
structure HQuery where
  status : Option String
  modelId : Option Nat
  phoneNumber : Option String
  dateFrom : Option Int
  dateTo : Option Int
  search : Option String
deriving DecidableEq

def emptyHQuery : HQuery := ⟨none, none, none, none, none, none⟩

/-- An absent filter constrains nothing. -/
def optTest (o : Option α) (p : α → Bool) : Bool :=
  match o with
  | none => true
  | some a => p a

/-- `m.name` after `LEFT JOIN device_models m ON h.model_id = m.id`: null when
the row has no model or the model is gone. -/
def modelNameOf (db : Db) (r : HistoryRow) : Option String :=
  r.model_id.bind (fun mid => (db.models.find? (fun m => m.id = mid)).map (fun m => m.name))

/-- `SQL NULL ILIKE pat` is not true. -/
def optContains (o : Option String) (pat : String) : Bool :=
  match o with
  | none => false
  | some t => containsCI t pat

/-- Semantics of the generated WHERE clause on one history row: the AND of the
supplied conditions (equality on status and model id, case-insensitive
substring on phone number, inclusive bounds on `sent_at`, and the three-way
ILIKE disjunction for free-text search). -/
def rowMatches (db : Db) (q : HQuery) (r : HistoryRow) : Bool :=
  optTest q.status (fun s => r.status = s) &&
  optTest q.modelId (fun m => r.model_id = some m) &&
  optTest q.phoneNumber (fun p => containsCI r.phone_number p) &&
  optTest q.dateFrom (fun d => d ≤ r.sent_at) &&
  optTest q.dateTo (fun d => r.sent_at ≤ d) &&
  optTest q.search (fun s =>
    containsCI r.command_text s || optContains r.notes s || optContains (modelNameOf db r) s)

/-- Insert into a list sorted by `sent_at` descending. -/
def insertDesc (r : HistoryRow) : List HistoryRow → List HistoryRow
  | [] => [r]
  | x :: xs => if x.sent_at ≤ r.sent_at then r :: x :: xs else x :: insertDesc r xs

/-- `ORDER BY h.sent_at DESC`. -/
def sortDesc : List HistoryRow → List HistoryRow
  | [] => []
  | x :: xs => insertDesc x (sortDesc xs)

/-- The count query: same predicate as the row query, no pagination. -/
def totalCount (db : Db) (q : HQuery) : Nat :=
  (db.history.filter (rowMatches db q)).length

/-- The filtered and ordered row set before `LIMIT`/`OFFSET`. -/
def filteredSorted (db : Db) (q : HQuery) : List HistoryRow :=
  sortDesc (db.history.filter (rowMatches db q))

/-- Pagination metadata of the history response. -/
structure HistPagination where
  page : Nat
  limit : Nat
  total : Nat
  pages : Nat
  hasNext : Bool
  hasPrev : Bool
deriving DecidableEq

/-- JSON response of `GET /api/sms/history` (the fields the claims read). -/
structure HistResp where
  data : List HistoryRow
  pagination : HistPagination
deriving DecidableEq

/-- The `GET /api/sms/history` handler: defaults `page = 1`, `limit = 50`;
`OFFSET (page-1)*limit LIMIT limit` over the filtered rows ordered by
`sent_at` descending; total from the count query; `pages = ceil(total/limit)`,
`hasNext = page*limit < total`, `hasPrev = page > 1`. -/
def historyHandler (db : Db) (q : HQuery) (pageQ limitQ : Option Nat) : HistResp :=
  let page := pageQ.getD 1
  let limit := limitQ.getD 50
  let offset := (page - 1) * limit
  let total := totalCount db q
  { data := ((filteredSorted db q).drop offset).take limit
    pagination :=
      { page := page, limit := limit, total := total
        pages := (total + limit - 1) / limit
        hasNext := decide (page * limit < total)
        hasPrev := decide (1 < page) } }

/-- "Adds one filter": `q2` is `q1` with exactly one previously-unset filter
now set. -/
def addsFilter (q1 q2 : HQuery) : Prop :=
  (q1.status = none ∧ ∃ v, q2 = { q1 with status := some v }) ∨
  (q1.modelId = none ∧ ∃ v, q2 = { q1 with modelId := some v }) ∨
  (q1.phoneNumber = none ∧ ∃ v, q2 = { q1 with phoneNumber := some v }) ∨
  (q1.dateFrom = none ∧ ∃ v, q2 = { q1 with dateFrom := some v }) ∨
  (q1.dateTo = none ∧ ∃ v, q2 = { q1 with dateTo := some v }) ∨
  (q1.search = none ∧ ∃ v, q2 = { q1 with search := some v })

/-! ### Concrete fixtures for witnesses and counterexamples -/

/-- A small store: one model, one command referencing it, two history rows. -/
def exDb : Db :=
  { models := [⟨1, "TK103"⟩]
    commands := [⟨7, 1, "RESET123456"⟩]
    history :=
      [⟨1, "+5511999999999", some 1, "RESET123456", "sent", 10, none, none,
        ⟨true, "ok", some "msg_a", none⟩⟩,
       ⟨2, "+5511888888888", some 1, "STATUS123456", "failed", 20, none, none,
        ⟨false, "SMS delivery failed - network error", none, some "NETWORK_ERROR"⟩⟩] }

/-- A store with no commands, for the delete witness. -/
def exDbNoCmds : Db := { models := [⟨1, "TK103"⟩], commands := [], history := [] }

/-- A deterministic environment: every dispatch succeeds, every insert
succeeds. -/
def exEnv : SendEnv :=
  { dispatchOk := fun _ => true, msgSeed := fun i => toString i
    sentAt := fun i => (i : Int), insertErr := fun _ => none }

/-- An environment whose first insert throws. -/
def exEnvErr0 : SendEnv :=
  { dispatchOk := fun _ => true, msgSeed := fun i => toString i
    sentAt := fun i => (i : Int), insertErr := fun i => if i = 0 then some "db down" else none }

/-- A send request whose phone-number array is non-empty but holds a
non-string element. -/
def exReqBad : SendReq :=
  ⟨[JsVal.str "+5511999999999", JsVal.nonStr "number"], some 1, "STATUS123456", none⟩

end SmsApp

namespace SmsApp

/-! ### Helper lemmas -/

theorem data_append (s t : String) : (s ++ t).data = s.data ++ t.data := by
  cases s; cases t; rfl

theorem leadsChars_self_append [DecidableEq α] (n b : List α) :
    leadsChars n (n ++ b) = true := by
  induction n with
  | nil => rfl
  | cons a as ih => simp [leadsChars, ih]

theorem occursIn_middle [DecidableEq α] (a n b : List α) :
    occursIn n (a ++ (n ++ b)) = true := by
  induction a with
  | nil =>
    cases n with
    | nil =>
      cases b with
      | nil => rfl
      | cons h t => rfl
    | cons c cs =>
      have h1 : leadsChars (c :: cs) (c :: (cs ++ b)) = true := by
        simpa using leadsChars_self_append (c :: cs) b
      simp [occursIn, h1]
  | cons x xs ih => simp [occursIn, ih]

theorem sendSMSCommand_success_eq (draw : Bool) (seed p c m : String) :
    (sendSMSCommand draw seed p c m).success = draw := by
  cases draw <;> rfl

/-- The validation filter on a batch of actual strings never throws and keeps
exactly the numbers failing the pattern, untrimmed, in order. -/
theorem collectInvalid_strs (ps : List String) :
    collectInvalid (ps.map JsVal.str) =
      .ok (ps.filter (fun s => !phoneTest (jsTrim s))) := by
  induction ps with
  | nil => rfl
  | cons s ss ih =>
    simp only [List.map, collectInvalid, ih, Except.map]
    cases h : phoneTest (jsTrim s)
    · simp [List.filter_cons, h]
    · simp [List.filter_cons, h]

theorem withIdx_mem_bounds (l : List α) :
    ∀ i p, p ∈ withIdx i l → i ≤ p.1 ∧ p.1 < i + l.length := by
  induction l with
  | nil =>
    intro i p h
    cases h
  | cons a as ih =>
    intro i p h
    simp only [withIdx, List.mem_cons] at h
    rcases h with h | h
    · subst h
      simp only [List.length_cons]
      exact ⟨Nat.le_refl i, by omega⟩
    · have := ih (i+1) p h
      simp only [List.length_cons]
      omega

/-- Counting a list split by two mutually exclusive, jointly exhaustive
predicates. -/
theorem filter_partition (p q : α → Bool) (l : List α)
    (hpq : ∀ a ∈ l, p a = true ∨ q a = true)
    (hdis : ∀ a ∈ l, ¬(p a = true ∧ q a = true)) :
    (l.filter p).length + (l.filter q).length = l.length := by
  induction l with
  | nil => rfl
  | cons a as ih =>
    have h1 := hpq a (by simp)
    have h2 := hdis a (by simp)
    have ih2 := ih (fun x hx => hpq x (by simp [hx])) (fun x hx => hdis x (by simp [hx]))
    rcases h1 with h | h
    · have hq : q a = false := by
        cases hqa : q a
        · rfl
        · exact absurd ⟨h, hqa⟩ h2
      simp [List.filter_cons, h, hq]
      omega
    · have hp : p a = false := by
        cases hpa : p a
        · rfl
        · exact absurd ⟨hpa, h⟩ h2
      simp [List.filter_cons, h, hp]
      omega

/-- Full characterization of the per-number loop on a batch of strings: it
never throws; the error entries are exactly the trimmed numbers whose insert
threw, with the thrown message; the result entries are exactly the remaining
numbers with their dispatch outcome; every number is dispatched (an error for
one number does not abort the rest); one row is produced per result entry; and
every result status is "sent" or "failed". -/
theorem processLoop_strs (env : SendEnv) (mid : Nat) (cmdRaw : String)
    (notes : Option String) (mname : String) :
    ∀ (ps : List String) (i nid : Nat), ∃ o : LoopOut,
      processLoop env mid cmdRaw notes mname i nid (ps.map JsVal.str) = .ok o ∧
      o.errors = (withIdx i ps).filterMap
        (fun p => (env.insertErr p.1).map (fun msg => (⟨jsTrim p.2, msg⟩ : ErrEntry))) ∧
      o.results.map (fun r => (r.phone, r.status)) = (withIdx i ps).filterMap
        (fun p => if env.insertErr p.1 = none
          then some (jsTrim p.2, if env.dispatchOk p.1 then "sent" else "failed")
          else none) ∧
      o.dispatched = ps.map jsTrim ∧
      o.results.length + o.errors.length = ps.length ∧
      o.rows.length = o.results.length ∧
      (∀ r ∈ o.results, r.status = "sent" ∨ r.status = "failed") := by
  intro ps
  induction ps with
  | nil =>
    intro i nid
    exact ⟨⟨[], [], [], []⟩, rfl, rfl, rfl, rfl, rfl, rfl, by intro r h; cases h⟩
  | cons s ss ih =>
    intro i nid
    cases he : env.insertErr i with
    | some msg =>
      obtain ⟨o, ho, h1, h2, h3, h4, h5, h6⟩ := ih (i+1) nid
      refine ⟨⟨o.results, ⟨jsTrim s, msg⟩ :: o.errors, o.rows, jsTrim s :: o.dispatched⟩,
        ?_, ?_, ?_, ?_, ?_, ?_, ?_⟩
      · show processLoop env mid cmdRaw notes mname i nid
            (JsVal.str s :: ss.map JsVal.str) = _
        simp only [processLoop, he, ho, Except.map]
      · simp only [withIdx, List.filterMap_cons, he, Option.map_some']
        rw [h1]
      · simp only [withIdx, List.filterMap_cons, he]
        simpa using h2
      · rw [List.map_cons, h3]
      · simp only [List.length_cons]
        omega
      · exact h5
      · exact h6
    | none =>
      obtain ⟨o, ho, h1, h2, h3, h4, h5, h6⟩ := ih (i+1) (nid+1)
      refine ⟨⟨⟨jsTrim s, if env.dispatchOk i then "sent" else "failed", nid,
          (sendSMSCommand (env.dispatchOk i) (env.msgSeed i) (jsTrim s) cmdRaw mname).details⟩
            :: o.results,
          o.errors,
          ({ id := nid, phone_number := jsTrim s, model_id := some mid
             command_text := jsTrim cmdRaw
             status := if env.dispatchOk i then "sent" else "failed"
             sent_at := env.sentAt i
             details := truthy (some (sendSMSCommand (env.dispatchOk i) (env.msgSeed i)
               (jsTrim s) cmdRaw mname).details)
             notes := truthy notes
             response_data := sendSMSCommand (env.dispatchOk i) (env.msgSeed i)
               (jsTrim s) cmdRaw mname } : HistoryRow) :: o.rows,
          jsTrim s :: o.dispatched⟩, ?_, ?_, ?_, ?_, ?_, ?_, ?_⟩
      · show processLoop env mid cmdRaw notes mname i nid
            (JsVal.str s :: ss.map JsVal.str) = _
        simp only [processLoop, he, ho, Except.map, sendSMSCommand_success_eq]
      · simp only [withIdx, List.filterMap_cons, he, Option.map_none']
        rw [h1]
      · simp only [withIdx, List.filterMap_cons, he, List.map_cons]
        rw [if_pos trivial, h2]
      · rw [List.map_cons, h3]
      · simp only [List.length_cons]
        omega
      · simp only [List.length_cons, h5]
      · intro r hr
        rcases List.mem_cons.mp hr with h | h
        · subst h
          by_cases hd : env.dispatchOk i = true
          · left
            simp [hd]
          · right
            simp only [Bool.not_eq_true] at hd
            simp [hd]
        · exact h6 r h

/-- The success path of the send handler: guards pass, every number valid,
model resolved — the response is assembled from the loop outcome, whose rows
are appended to `sms_history`. -/
theorem sendHandler_success (db : Db) (env : SendEnv) (ps : List String) (mid : Nat)
    (cmd : String) (notes : Option String) (m : DeviceModel)
    (hne : ps ≠ []) (hmid : mid ≠ 0) (hcmd : jsTrim cmd ≠ "")
    (hvalid : ps.filter (fun s => !phoneTest (jsTrim s)) = [])
    (hm : db.models.find? (fun x => x.id = mid) = some m) :
    ∃ o : LoopOut,
      processLoop env mid cmd notes m.name 0 db.history.length (ps.map JsVal.str) = .ok o ∧
      sendHandler db env ⟨ps.map JsVal.str, some mid, cmd, notes⟩ =
        ⟨.okResp ps.length ((o.results.filter (fun r => r.status = "sent")).length)
            ((o.results.filter (fun r => r.status = "failed")).length + o.errors.length)
            o.results o.errors,
         { db with history := db.history ++ o.rows }, o.dispatched⟩ := by
  obtain ⟨o, ho, -⟩ := processLoop_strs env mid cmd notes m.name ps 0 db.history.length
  refine ⟨o, ho, ?_⟩
  have h1 : (ps.map JsVal.str).isEmpty = false := by
    cases ps with
    | nil => exact absurd rfl hne
    | cons a as => rfl
  unfold sendHandler
  rw [if_neg (by simp [h1])]
  dsimp only
  rw [if_neg (by simp [hmid, hcmd]), collectInvalid_strs, hvalid]
  dsimp only
  rw [hm]
  dsimp only
  rw [ho]
  simp

/-- The rejection path of the send handler: with at least one invalid number
the response is the 400 invalid-phones response carrying exactly the failing
numbers, the store is unchanged and nothing is dispatched. -/
theorem sendHandler_invalid (db : Db) (env : SendEnv) (ps : List String) (mid : Nat)
    (cmd : String) (notes : Option String)
    (hne : ps ≠ []) (hmid : mid ≠ 0) (hcmd : jsTrim cmd ≠ "")
    (hbad : ps.filter (fun s => !phoneTest (jsTrim s)) ≠ []) :
    sendHandler db env ⟨ps.map JsVal.str, some mid, cmd, notes⟩ =
      ⟨.badRequest "Invalid phone numbers detected"
          (some (ps.filter (fun s => !phoneTest (jsTrim s)))), db, []⟩ := by
  have h1 : (ps.map JsVal.str).isEmpty = false := by
    cases ps with
    | nil => exact absurd rfl hne
    | cons a as => rfl
  have h2 : (ps.filter (fun s => !phoneTest (jsTrim s))).isEmpty = false := by
    rcases hl : ps.filter (fun s => !phoneTest (jsTrim s)) with _ | ⟨a, as⟩
    · exact absurd hl hbad
    · rfl
  unfold sendHandler
  rw [if_neg (by simp [h1])]
  dsimp only
  rw [if_neg (by simp [hmid, hcmd]), collectInvalid_strs]
  dsimp only
  rw [if_pos (by simp [h2])]

/-! ### Claim theorems -/

/-- C7: for every input and every outcome of the random draw, the dispatch stub
`sendSMSCommand` returns a definite record (it is a total function, never
throwing to its caller): on success a record with `success = true`, a generated
message identifier and a non-empty human-readable detail string; on failure a
record with `success = false`, the fixed error code "NETWORK_ERROR" and a
detail string. -/
theorem sendSMSCommand_definite (draw : Bool) (seed phone cmd mname : String) :
    ((sendSMSCommand draw seed phone cmd mname).success = true ∧
     (sendSMSCommand draw seed phone cmd mname).messageId = some ("msg_" ++ seed) ∧
     (sendSMSCommand draw seed phone cmd mname).details ≠ "") ∨
    ((sendSMSCommand draw seed phone cmd mname).success = false ∧
     (sendSMSCommand draw seed phone cmd mname).errorCode = some "NETWORK_ERROR" ∧
     (sendSMSCommand draw seed phone cmd mname).details ≠ "") := by
  cases draw with
  | false =>
    refine Or.inr ⟨rfl, rfl, ?_⟩
    show ("SMS delivery failed - network error" : String) ≠ ""
    decide
  | true =>
    refine Or.inl ⟨rfl, rfl, ?_⟩
    intro h
    have h2 : ("Command \"" ++ cmd ++ "\" sent successfully to " ++ mname ++ " device")
        = "" := h
    have h3 := congrArg String.data h2
    rw [data_append, data_append, data_append, data_append] at h3
    simp at h3

/-- C10: an input whose phone-number array is non-empty but contains a
non-string element makes `POST /api/sms/send` answer 500 Internal rather than
400: `.trim()` thrown inside the validation filter is caught only by the outer
catch; no `sms_history` row is created and nothing is dispatched. -/
theorem send_nonstring_internal :
    (sendHandler exDb exEnv exReqBad).resp = .internal "phone.trim is not a function" ∧
    (sendHandler exDb exEnv exReqBad).resp.statusCode = 500 ∧
    (sendHandler exDb exEnv exReqBad).resp.statusCode ≠ 400 ∧
    (sendHandler exDb exEnv exReqBad).db = exDb ∧
    (sendHandler exDb exEnv exReqBad).dispatched = [] := by
  refine ⟨by decide, by decide, by decide, by decide, by decide⟩

/-- C6: under referential integrity, `DELETE /api/models/:id` answers 409
Conflict with the associated-command count in the message and leaves the store
unchanged whenever at least one command references the model; with zero
references it removes exactly that model row (commands and history untouched)
when the model exists, and answers 404 with the store unchanged when it does
not. -/
theorem deleteModel_spec (db : Db) (id : Nat) (hwf : db.wf) :
    (0 < (db.commands.filter (fun c => c.model_id = id)).length →
      (deleteModel db id).1 = DelResp.conflict ("Cannot delete model. It has " ++
        toString (db.commands.filter (fun c => c.model_id = id)).length ++
        " associated commands.") ∧
      occursIn (toString (db.commands.filter (fun c => c.model_id = id)).length).data
        ((deleteModel db id).1.errText).data = true ∧
      (deleteModel db id).1.statusCode = 409 ∧
      (deleteModel db id).2 = db) ∧
    (∀ m, db.models.find? (fun x => x.id = id) = some m →
      (db.commands.filter (fun c => c.model_id = id)).length = 0 →
      (deleteModel db id).1 = DelResp.okResp m ∧
      (deleteModel db id).2.models = db.models.filter (fun x => !(x.id = id)) ∧
      (deleteModel db id).2.commands = db.commands ∧
      (deleteModel db id).2.history = db.history) ∧
    (db.models.find? (fun x => x.id = id) = none →
      (deleteModel db id).1 = DelResp.notFound "Model not found" ∧
      (deleteModel db id).1.statusCode = 404 ∧
      (deleteModel db id).2 = db) := by
  refine ⟨?_, ?_, ?_⟩
  · intro hpos
    have hd : deleteModel db id = (DelResp.conflict ("Cannot delete model. It has " ++
        toString (db.commands.filter (fun c => c.model_id = id)).length ++
        " associated commands."), db) := by
      simp only [deleteModel]
      rw [if_pos hpos]
    refine ⟨by rw [hd], ?_, by rw [hd]; rfl, by rw [hd]⟩
    rw [hd]
    show occursIn (toString (db.commands.filter (fun c => c.model_id = id)).length).data
      (("Cannot delete model. It has " ++
        toString (db.commands.filter (fun c => c.model_id = id)).length ++
        " associated commands.").data) = true
    rw [data_append, data_append, List.append_assoc]
    exact occursIn_middle _ _ _
  · intro m hm hcnt
    have hd : deleteModel db id =
        (DelResp.okResp m, { db with models := db.models.filter (fun x => !(x.id = id)) }) := by
      simp only [deleteModel]
      rw [if_neg (by omega), hm]
    exact ⟨by rw [hd], by rw [hd], by rw [hd], by rw [hd]⟩
  · intro hnone
    have hcnt : (db.commands.filter (fun c => c.model_id = id)).length = 0 := by
      rw [List.length_eq_zero, List.filter_eq_nil_iff]
      intro c hc
      simp only [decide_eq_true_eq]
      intro he
      obtain ⟨m, hm, hmid⟩ := hwf c hc
      have hne := List.find?_eq_none.mp hnone m hm
      simp only [decide_eq_true_eq] at hne
      exact hne (by rw [hmid, he])
    have hd : deleteModel db id = (DelResp.notFound "Model not found", db) := by
      simp only [deleteModel]
      rw [if_neg (by omega), hnone]
    exact ⟨by rw [hd], by rw [hd]; rfl, by rw [hd]⟩

/-- Witness for C6 at a concrete store: model 1 has one associated command, so
deletion answers 409, the message mentions the count, and the store is
unchanged. -/
theorem deleteModel_spec_witness :
    (deleteModel exDb 1).1.statusCode = 409 ∧
    occursIn (toString ((exDb.commands.filter (fun c => c.model_id = 1)).length)).data
      ((deleteModel exDb 1).1.errText).data = true ∧
    (deleteModel exDb 1).2 = exDb := by
  have h := (deleteModel_spec exDb 1 (by unfold Db.wf; decide)).1 (by decide)
  exact ⟨h.2.2.1, h.2.1, h.2.2.2⟩

/-- C2: for every send request over a non-empty all-string batch with a truthy
model id and non-blank command text, if at least one phone number fails the
permissive pattern after trimming, the entire request is rejected with status
400 carrying exactly the offending numbers, nothing is dispatched, and the
store is unchanged. -/
theorem send_allOrNothing (db : Db) (env : SendEnv) (ps : List String) (mid : Nat)
    (cmd : String) (notes : Option String)
    (hne : ps ≠ []) (hmid : mid ≠ 0) (hcmd : jsTrim cmd ≠ "")
    (hbad : ps.filter (fun s => !phoneTest (jsTrim s)) ≠ []) :
    sendHandler db env ⟨ps.map JsVal.str, some mid, cmd, notes⟩ =
      ⟨.badRequest "Invalid phone numbers detected"
          (some (ps.filter (fun s => !phoneTest (jsTrim s)))), db, []⟩ ∧
    (sendHandler db env ⟨ps.map JsVal.str, some mid, cmd, notes⟩).resp.statusCode = 400 := by
  have heq := sendHandler_invalid db env ps mid cmd notes hne hmid hcmd hbad
  exact ⟨heq, by rw [heq]; rfl⟩

/-- Witness for C2: a batch holding one valid and one invalid number yields the
400 invalid-phones response listing exactly the invalid one, with the store
untouched and nothing dispatched. -/
theorem send_allOrNothing_witness :
    sendHandler exDb exEnv
        ⟨[JsVal.str "+5511999999999", JsVal.str "abc"], some 1, "STATUS123456", none⟩ =
      ⟨.badRequest "Invalid phone numbers detected" (some ["abc"]), exDb, []⟩ := by
  have h := send_allOrNothing exDb exEnv ["+5511999999999", "abc"] 1 "STATUS123456" none
    (by decide) (by decide) (by decide) (by decide)
  exact h.1

/-- C1 counterexample: a batch with one syntactically valid and one invalid
number, a resolvable model and non-empty command text creates zero
`sms_history` rows, while the count of valid numbers in the batch is one — the
claimed equality fails. -/
theorem send_rows_eq_validCount_cex :
    ((["+5511999999999", "abc"] : List String).filter (fun s => phoneTest (jsTrim s))).length
        = 1 ∧
    (sendHandler exDb exEnv ⟨[JsVal.str "+5511999999999", JsVal.str "abc"], some 1,
        "STATUS123456", none⟩).db.history.length - exDb.history.length = 0 ∧
    (sendHandler exDb exEnv ⟨[JsVal.str "+5511999999999", JsVal.str "abc"], some 1,
        "STATUS123456", none⟩).resp.statusCode = 400 ∧
    ¬((sendHandler exDb exEnv ⟨[JsVal.str "+5511999999999", JsVal.str "abc"], some 1,
        "STATUS123456", none⟩).db.history.length - exDb.history.length
      = ((["+5511999999999", "abc"] : List String).filter
          (fun s => phoneTest (jsTrim s))).length) := by
  refine ⟨by decide, by decide, by decide, by decide⟩

/-- C1 (amended): for every batch submitted with a resolvable model and
non-empty command text, if any number is syntactically invalid the request is
rejected with the offending numbers listed and zero rows are created; if every
number is valid and no per-number persistence error occurs, the number of
`sms_history` rows created equals the batch size, which is the count of valid
numbers. -/
theorem send_rows_created (db : Db) (env : SendEnv) (ps : List String) (mid : Nat)
    (cmd : String) (notes : Option String) (m : DeviceModel)
    (hne : ps ≠ []) (hmid : mid ≠ 0) (hcmd : jsTrim cmd ≠ "")
    (hm : db.models.find? (fun x => x.id = mid) = some m) :
    (ps.filter (fun s => !phoneTest (jsTrim s)) ≠ [] →
      (sendHandler db env ⟨ps.map JsVal.str, some mid, cmd, notes⟩).db = db ∧
      (sendHandler db env ⟨ps.map JsVal.str, some mid, cmd, notes⟩).resp =
        .badRequest "Invalid phone numbers detected"
          (some (ps.filter (fun s => !phoneTest (jsTrim s))))) ∧
    (ps.filter (fun s => !phoneTest (jsTrim s)) = [] →
      (∀ j, j < ps.length → env.insertErr j = none) →
      (sendHandler db env ⟨ps.map JsVal.str, some mid, cmd, notes⟩).db.history.length
        = db.history.length + ps.length) := by
  constructor
  · intro hbad
    have heq := sendHandler_invalid db env ps mid cmd notes hne hmid hcmd hbad
    exact ⟨by rw [heq], by rw [heq]⟩
  · intro hval hnoerr
    obtain ⟨o, ho, hsend⟩ :=
      sendHandler_success db env ps mid cmd notes m hne hmid hcmd hval hm
    obtain ⟨o', ho', he1, he2, he3, he4, he5, he6⟩ :=
      processLoop_strs env mid cmd notes m.name ps 0 db.history.length
    rw [ho] at ho'
    injection ho' with hoo
    subst hoo
    rw [hsend]
    dsimp only
    rw [List.length_append]
    have herr : o.errors = [] := by
      rw [he1]
      rw [List.filterMap_eq_nil_iff]
      intro p hp
      have hb := withIdx_mem_bounds ps 0 p hp
      rw [hnoerr p.1 (by omega)]
      rfl
    rw [herr] at he4
    simp only [List.length_nil] at he4
    omega

/-- Witness for C1 (amended), all-valid branch: a two-number valid batch with
no persistence errors creates exactly two rows. -/
theorem send_rows_created_witness :
    (sendHandler exDb exEnv ⟨[JsVal.str "+5511999999999", JsVal.str "+5511888888888"],
        some 1, "STATUS123456", none⟩).db.history.length = exDb.history.length + 2 := by
  have h := (send_rows_created exDb exEnv ["+5511999999999", "+5511888888888"] 1
    "STATUS123456" none ⟨1, "TK103"⟩ (by decide) (by decide) (by decide) (by decide)).2
    (by decide) (fun j hj => rfl)
  exact h

/-- C5: for every send request passing validation and model resolution, a
persistence error raised while processing one phone number is caught and
recorded as a per-number entry in the errors list (carrying the thrown
message), the remaining numbers are still processed — every number in the
batch is dispatched and lands in exactly one of the results or errors lists,
by batch position — and the errors appear in the response separately from the
results. -/
theorem send_partial_failure (db : Db) (env : SendEnv) (ps : List String) (mid : Nat)
    (cmd : String) (notes : Option String) (m : DeviceModel)
    (hne : ps ≠ []) (hmid : mid ≠ 0) (hcmd : jsTrim cmd ≠ "")
    (hvalid : ps.filter (fun s => !phoneTest (jsTrim s)) = [])
    (hm : db.models.find? (fun x => x.id = mid) = some m) :
    (sendHandler db env ⟨ps.map JsVal.str, some mid, cmd, notes⟩).resp.errorsOf =
      some ((withIdx 0 ps).filterMap
        (fun p => (env.insertErr p.1).map (fun msg => (⟨jsTrim p.2, msg⟩ : ErrEntry)))) ∧
    Option.map (List.map (fun r => (r.phone, r.status)))
        (sendHandler db env ⟨ps.map JsVal.str, some mid, cmd, notes⟩).resp.resultsOf =
      some ((withIdx 0 ps).filterMap
        (fun p => if env.insertErr p.1 = none
          then some (jsTrim p.2, if env.dispatchOk p.1 then "sent" else "failed")
          else none)) ∧
    (sendHandler db env ⟨ps.map JsVal.str, some mid, cmd, notes⟩).dispatched =
      ps.map jsTrim := by
  obtain ⟨o, ho, hsend⟩ :=
    sendHandler_success db env ps mid cmd notes m hne hmid hcmd hvalid hm
  obtain ⟨o', ho', he1, he2, he3, he4, he5, he6⟩ :=
    processLoop_strs env mid cmd notes m.name ps 0 db.history.length
  rw [ho] at ho'
  injection ho' with hoo
  subst hoo
  rw [hsend]
  refine ⟨?_, ?_, ?_⟩
  · simp only [SendResp.errorsOf]
    rw [he1]
  · simp only [SendResp.resultsOf, Option.map_some']
    rw [he2]
  · exact he3

/-- Witness for C5: with the first insert throwing "db down", the first number
lands in the errors list, the second is still processed into the results list,
and both numbers were dispatched. -/
theorem send_partial_failure_witness :
    (sendHandler exDb exEnvErr0 ⟨[JsVal.str "+5511999999999", JsVal.str "+5511888888888"],
        some 1, "STATUS123456", none⟩).resp.errorsOf =
      some [⟨"+5511999999999", "db down"⟩] ∧
    Option.map (List.map (fun r => (r.phone, r.status)))
        (sendHandler exDb exEnvErr0 ⟨[JsVal.str "+5511999999999",
          JsVal.str "+5511888888888"], some 1, "STATUS123456", none⟩).resp.resultsOf =
      some [("+5511888888888", "sent")] ∧
    (sendHandler exDb exEnvErr0 ⟨[JsVal.str "+5511999999999", JsVal.str "+5511888888888"],
        some 1, "STATUS123456", none⟩).dispatched =
      ["+5511999999999", "+5511888888888"] := by
  have h := send_partial_failure exDb exEnvErr0 ["+5511999999999", "+5511888888888"] 1
    "STATUS123456" none ⟨1, "TK103"⟩ (by decide) (by decide) (by decide) (by decide)
    (by decide)
  exact ⟨h.1.trans (by decide), h.2.1.trans (by decide), h.2.2.trans (by decide)⟩

/-- C9: for every send request passing validation and model resolution, the
success response satisfies `summary.sent + summary.failed = summary.total`,
`total` is the length of the requested batch, each phone number contributes
exactly one entry to the results or the errors list, `sent` counts the results
with status "sent", and `failed` counts the results with status "failed" plus
all error entries. -/
theorem send_summary (db : Db) (env : SendEnv) (ps : List String) (mid : Nat)
    (cmd : String) (notes : Option String) (m : DeviceModel)
    (hne : ps ≠ []) (hmid : mid ≠ 0) (hcmd : jsTrim cmd ≠ "")
    (hvalid : ps.filter (fun s => !phoneTest (jsTrim s)) = [])
    (hm : db.models.find? (fun x => x.id = mid) = some m) :
    (sendHandler db env ⟨ps.map JsVal.str, some mid, cmd, notes⟩).resp.statusCode = 200 ∧
    ∀ t s f rs es,
      (sendHandler db env ⟨ps.map JsVal.str, some mid, cmd, notes⟩).resp =
        .okResp t s f rs es →
      t = ps.length ∧ s + f = t ∧ rs.length + es.length = t ∧
      s = (rs.filter (fun r => r.status = "sent")).length ∧
      f = (rs.filter (fun r => r.status = "failed")).length + es.length := by
  obtain ⟨o, ho, hsend⟩ :=
    sendHandler_success db env ps mid cmd notes m hne hmid hcmd hvalid hm
  obtain ⟨o', ho', he1, he2, he3, he4, he5, he6⟩ :=
    processLoop_strs env mid cmd notes m.name ps 0 db.history.length
  rw [ho] at ho'
  injection ho' with hoo
  subst hoo
  refine ⟨by rw [hsend]; rfl, ?_⟩
  intro t s f rs es hresp
  rw [hsend] at hresp
  dsimp only at hresp
  rw [SendResp.okResp.injEq] at hresp
  obtain ⟨h1, h2, h3, h4, h5⟩ := hresp
  subst h1
  subst h2
  subst h3
  subst h4
  subst h5
  have hpart := filter_partition (fun r => decide (r.status = "sent"))
    (fun r => decide (r.status = "failed")) o.results
    (by
      intro a ha
      rcases he6 a ha with h | h
      · left
        simp [h]
      · right
        simp [h])
    (by
      intro a ha h
      obtain ⟨hp, hq⟩ := h
      simp only [decide_eq_true_eq] at hp hq
      rw [hp] at hq
      exact absurd hq (by decide))
  refine ⟨rfl, by omega, by omega, rfl, rfl⟩

theorem withIdx_length (i : Nat) (l : List α) : (withIdx i l).length = l.length := by
  induction l generalizing i with
  | nil => rfl
  | cons a as ih =>
    simp only [withIdx, List.length_cons]
    rw [ih]

theorem withIdx_append (l : List α) :
    ∀ (i : Nat) (x : α), withIdx i (l ++ [x]) = withIdx i l ++ [(i + l.length, x)] := by
  induction l with
  | nil =>
    intro i x
    simp [withIdx]
  | cons a as ih =>
    intro i x
    have h : i + 1 + as.length = i + (a :: as).length := by
      simp only [List.length_cons]
      omega
    calc withIdx i ((a :: as) ++ [x])
        = (i, a) :: withIdx (i+1) (as ++ [x]) := rfl
      _ = (i, a) :: (withIdx (i+1) as ++ [(i + 1 + as.length, x)]) := by rw [ih (i+1) x]
      _ = ((i, a) :: withIdx (i+1) as) ++ [(i + (a :: as).length, x)] := by
            rw [h]
            rfl
      _ = withIdx i (a :: as) ++ [(i + (a :: as).length, x)] := rfl

/-- Invariant of the builder fold: starting from the state describing an
already-accumulated list of supplied filters, folding the remaining checks
yields the state describing the extended list — clauses indexed by 1-based
position, parameters in the same order, counter equal to the length. -/
theorem pushAll_spec (l : List (FilterKind × Option String)) :
    ∀ acc : List (FilterKind × String),
      pushAll l ⟨(withIdx 1 acc).map (fun p => clauseFor p.2.1 p.1),
                 acc.map (fun p => paramFor p.1 p.2), acc.length⟩ =
      ⟨(withIdx 1 (acc ++ l.filterMap
            (fun kv => (truthy kv.2).map (fun v => (kv.1, v))))).map
          (fun p => clauseFor p.2.1 p.1),
       (acc ++ l.filterMap (fun kv => (truthy kv.2).map (fun v => (kv.1, v)))).map
          (fun p => paramFor p.1 p.2),
       (acc ++ l.filterMap (fun kv => (truthy kv.2).map (fun v => (kv.1, v)))).length⟩ := by
  induction l with
  | nil =>
    intro acc
    simp [pushAll]
  | cons kv rest ih =>
    intro acc
    obtain ⟨k, v⟩ := kv
    cases hv : truthy v with
    | none =>
      simp only [pushAll, pushFilter, hv, List.filterMap_cons, Option.map_none']
      exact ih acc
    | some val =>
      simp only [pushAll, pushFilter, hv, List.filterMap_cons, Option.map_some']
      have hstate : (⟨(withIdx 1 acc).map (fun p => clauseFor p.2.1 p.1) ++
            [clauseFor k (acc.length + 1)],
          acc.map (fun p => paramFor p.1 p.2) ++ [paramFor k val],
          acc.length + 1⟩ : WhereState) =
        ⟨(withIdx 1 (acc ++ [(k, val)])).map (fun p => clauseFor p.2.1 p.1),
         (acc ++ [(k, val)]).map (fun p => paramFor p.1 p.2),
         (acc ++ [(k, val)]).length⟩ := by
        rw [withIdx_append, List.map_append, List.map_append, List.length_append]
        have h : 1 + acc.length = acc.length + 1 := by omega
        rw [h]
        rfl
      rw [hstate, ih (acc ++ [(k, val)])]
      simp only [List.append_assoc, List.singleton_append]

/-- The clause list depends only on WHICH filters are supplied, not on their
values: the SQL text never embeds a user-supplied value. -/
theorem withIdx_map_clause_eq (l1 : List (FilterKind × String)) :
    ∀ l2 : List (FilterKind × String), l1.map Prod.fst = l2.map Prod.fst →
    ∀ i, (withIdx i l1).map (fun p => clauseFor p.2.1 p.1) =
      (withIdx i l2).map (fun p => clauseFor p.2.1 p.1) := by
  induction l1 with
  | nil =>
    intro l2 h i
    cases l2 with
    | nil => rfl
    | cons b bs => simp at h
  | cons a as ih =>
    intro l2 h i
    cases l2 with
    | nil => simp at h
    | cons b bs =>
      simp only [List.map_cons, List.cons.injEq] at h
      obtain ⟨h1, h2⟩ := h
      simp only [withIdx, List.map_cons]
      rw [h1, ih bs h2 (i+1)]

/-- C3: for every combination of supplied history filters, the generated
WHERE clause is exactly the AND of the clauses of the filters actually
supplied (empty when none are), every user-supplied value is passed as a
positional parameter — the parameter list is exactly the supplied values in
clause order, the parameter counter equals their number, and the SQL text
depends only on which filters are supplied, never on their values — and each
clause's positional index is the 1-based position of its value in the
parameter list. -/
theorem buildWhere_spec (f : HFilters) :
    (buildWhere f).2.1 = specParams f ∧
    (buildWhere f).1 = (if supplied f = [] then ""
      else "WHERE " ++ String.intercalate " AND " (specConds f)) ∧
    (buildWhere f).2.2 = (supplied f).length ∧
    (∀ g : HFilters, (supplied g).map Prod.fst = (supplied f).map Prod.fst →
      (buildWhere g).1 = (buildWhere f).1) := by
  have hmain : ∀ h : HFilters, pushAll (filtersInOrder h) ⟨[], [], 0⟩ =
      ⟨(withIdx 1 (supplied h)).map (fun p => clauseFor p.2.1 p.1),
       (supplied h).map (fun p => paramFor p.1 p.2), (supplied h).length⟩ := by
    intro h
    have hs := pushAll_spec (filtersInOrder h) []
    simpa [supplied] using hs
  have hb : ∀ h : HFilters, buildWhere h =
      (if 0 < ((withIdx 1 (supplied h)).map (fun p => clauseFor p.2.1 p.1)).length
        then "WHERE " ++ String.intercalate " AND "
          ((withIdx 1 (supplied h)).map (fun p => clauseFor p.2.1 p.1))
        else "",
       (supplied h).map (fun p => paramFor p.1 p.2), (supplied h).length) := by
    intro h
    unfold buildWhere
    rw [hmain h]
  have hwc : ∀ h : HFilters, (buildWhere h).1 = (if supplied h = [] then ""
      else "WHERE " ++ String.intercalate " AND " (specConds h)) := by
    intro h
    rw [hb h]
    by_cases hs : supplied h = []
    · rw [if_pos hs, hs]
      rfl
    · rw [if_neg hs]
      have hlen : 0 < (supplied h).length := List.length_pos.mpr hs
      rw [if_pos (by rw [List.length_map, withIdx_length]; omega)]
      rfl
  refine ⟨?_, hwc f, ?_, ?_⟩
  · rw [hb f]
    rfl
  · rw [hb f]
  · intro g hg
    rw [hwc g, hwc f]
    have hconds : specConds g = specConds f := withIdx_map_clause_eq _ _ hg 1
    have hemp : (supplied g = []) ↔ (supplied f = []) := by
      constructor <;> intro h0
      · have : (supplied f).map Prod.fst = [] := by rw [← hg, h0]; rfl
        exact List.map_eq_nil_iff.mp this
      · have : (supplied g).map Prod.fst = [] := by rw [hg, h0]; rfl
        exact List.map_eq_nil_iff.mp this
    by_cases hs : supplied f = []
    · rw [if_pos hs, if_pos (hemp.mpr hs)]
    · rw [if_neg hs, if_neg (fun hh => hs (hemp.mp hh)), hconds]

/-- Witness for C3 at concrete filters: status plus phone-number substring
yield the two AND-ed clauses with positional parameters `$1`, `$2`, the values
(wrapped for ILIKE) in matching order, and the same SQL text for different
values of the same filters. -/
theorem buildWhere_spec_witness :
    (buildWhere ⟨some "failed", none, some "11", none, none, none⟩).2.1 =
      ["failed", "%11%"] ∧
    (buildWhere ⟨some "failed", none, some "11", none, none, none⟩).1 =
      "WHERE h.status = $1 AND h.phone_number ILIKE $2" ∧
    (buildWhere ⟨some "sent", none, some "99", none, none, none⟩).1 =
      (buildWhere ⟨some "failed", none, some "11", none, none, none⟩).1 := by
  have h := buildWhere_spec ⟨some "failed", none, some "11", none, none, none⟩
  exact ⟨h.1.trans (by decide), by decide, h.2.2.2 _ (by decide)⟩

theorem filter_length_mono (p q : α → Bool) (l : List α)
    (h : ∀ a ∈ l, p a = true → q a = true) :
    (l.filter p).length ≤ (l.filter q).length := by
  induction l with
  | nil => simp
  | cons a as ih =>
    have ih2 := ih (fun x hx => h x (by simp [hx]))
    by_cases hp : p a = true
    · have hq := h a (by simp) hp
      simp [List.filter_cons, hp, hq]
      omega
    · have hp' : p a = false := by
        cases hpa : p a
        · rfl
        · exact absurd hpa hp
      cases hq : q a
      · simp [List.filter_cons, hp', hq]
        omega
      · simp [List.filter_cons, hp', hq]
        omega

/-- Setting one more filter only strengthens the row predicate. -/
theorem rowMatches_addsFilter (db : Db) (q q' : HQuery) (h : addsFilter q q')
    (r : HistoryRow) : rowMatches db q' r = true → rowMatches db q r = true := by
  rcases h with ⟨hn, v, rfl⟩ | ⟨hn, v, rfl⟩ | ⟨hn, v, rfl⟩ | ⟨hn, v, rfl⟩ |
    ⟨hn, v, rfl⟩ | ⟨hn, v, rfl⟩ <;>
  · intro hm
    simp only [rowMatches, Bool.and_eq_true] at hm ⊢
    obtain ⟨⟨⟨⟨⟨h1, h2⟩, h3⟩, h4⟩, h5⟩, h6⟩ := hm
    refine ⟨⟨⟨⟨⟨?_, ?_⟩, ?_⟩, ?_⟩, ?_⟩, ?_⟩ <;>
      first
        | assumption
        | (rw [hn]; rfl)

/-- C4: the count query shares the row query's predicate and ignores
pagination — the history response's total equals the filtered row count for
every page and limit; with no filters supplied that total is the unfiltered
row count of `sms_history`; and adding any filter to a given filter set never
increases the total. -/
theorem history_count_spec (db : Db) :
    totalCount db emptyHQuery = db.history.length ∧
    (∀ q p l, (historyHandler db q (some p) (some l)).pagination.total =
      totalCount db q) ∧
    (∀ q q', addsFilter q q' → totalCount db q' ≤ totalCount db q) := by
  refine ⟨?_, ?_, ?_⟩
  · have h : db.history.filter (rowMatches db emptyHQuery) = db.history := by
      apply List.filter_eq_self.mpr
      intro r hr
      rfl
    unfold totalCount
    rw [h]
  · intro q p l
    rfl
  · intro q q' h
    exact filter_length_mono _ _ _ (fun r hr hm => rowMatches_addsFilter db q q' h r hm)

/-- Witness for C4: on the concrete store the unfiltered total is 2 and adding
a status filter does not increase it. -/
theorem history_count_witness :
    totalCount exDb emptyHQuery = 2 ∧
    totalCount exDb { emptyHQuery with status := some "sent" } ≤
      totalCount exDb emptyHQuery := by
  have h := history_count_spec exDb
  exact ⟨h.1.trans (by decide), h.2.2 emptyHQuery _ (Or.inl ⟨rfl, "sent", rfl⟩)⟩

theorem mem_insertDesc (r a : HistoryRow) (l : List HistoryRow) :
    a ∈ insertDesc r l ↔ a = r ∨ a ∈ l := by
  induction l with
  | nil => simp [insertDesc]
  | cons x xs ih =>
    simp only [insertDesc]
    by_cases h : x.sent_at ≤ r.sent_at
    · rw [if_pos h]
      simp [List.mem_cons]
    · rw [if_neg h]
      simp only [List.mem_cons, ih]
      tauto

theorem pairwise_insertDesc (r : HistoryRow) (l : List HistoryRow)
    (hl : l.Pairwise (fun a b => b.sent_at ≤ a.sent_at)) :
    (insertDesc r l).Pairwise (fun a b => b.sent_at ≤ a.sent_at) := by
  induction l with
  | nil => simp [insertDesc]
  | cons x xs ih =>
    obtain ⟨hx, hxs⟩ := List.pairwise_cons.mp hl
    simp only [insertDesc]
    by_cases h : x.sent_at ≤ r.sent_at
    · rw [if_pos h]
      refine List.pairwise_cons.mpr ⟨?_, hl⟩
      intro b hb
      rcases List.mem_cons.mp hb with hb | hb
      · rw [hb]
        exact h
      · exact le_trans (hx b hb) h
    · rw [if_neg h]
      refine List.pairwise_cons.mpr ⟨?_, ih hxs⟩
      intro b hb
      rcases (mem_insertDesc r b xs).mp hb with hb | hb
      · rw [hb]
        exact le_of_lt (not_le.mp h)
      · exact hx b hb

theorem mem_sortDesc (a : HistoryRow) (l : List HistoryRow) :
    a ∈ sortDesc l ↔ a ∈ l := by
  induction l with
  | nil => simp [sortDesc]
  | cons x xs ih =>
    simp [sortDesc, mem_insertDesc, ih]

theorem pairwise_sortDesc (l : List HistoryRow) :
    (sortDesc l).Pairwise (fun a b => b.sent_at ≤ a.sent_at) := by
  induction l with
  | nil => exact List.Pairwise.nil
  | cons x xs ih => exact pairwise_insertDesc x (sortDesc xs) ih

/-- `(t + l - 1) / l` is the ceiling of `t / l`: it is the least `k` with
`t ≤ k * l`. -/
theorem ceilDiv_le_iff (t l k : Nat) (hl : 1 ≤ l) :
    ((t + l - 1) / l ≤ k ↔ t ≤ k * l) := by
  have hm : (k+1) * l = k * l + l := by ring
  constructor
  · intro h
    have h1 : (t + l - 1) / l < k + 1 := by omega
    have h2 : t + l - 1 < (k+1) * l := (Nat.div_lt_iff_lt_mul (by omega : 0 < l)).mp h1
    rw [hm] at h2
    omega
  · intro h
    have h2 : t + l - 1 < (k+1) * l := by rw [hm]; omega
    have h3 := (Nat.div_lt_iff_lt_mul (by omega : 0 < l)).mpr h2
    omega

/-- C8: for every history request with page `p ≥ 1` and limit `l ≥ 1`, the
response holds at most `l` rows, every returned row satisfies the supplied
filters (in particular a status filter forces that status), the rows are
ordered by `sent_at` descending, `hasPrev = (p > 1)`,
`hasNext = (p * l < total)`, and `pages` is the ceiling of `total / l` (both
the closed formula and the least-upper-bound characterization); absent
parameters default to page 1 and limit 50. -/
theorem history_pagination_spec (db : Db) (q : HQuery) (p l : Nat)
    (hp : 1 ≤ p) (hl : 1 ≤ l) :
    (historyHandler db q (some p) (some l)).data.length ≤ l ∧
    (∀ r ∈ (historyHandler db q (some p) (some l)).data, rowMatches db q r = true) ∧
    (∀ s, q.status = some s →
      ∀ r ∈ (historyHandler db q (some p) (some l)).data, r.status = s) ∧
    (historyHandler db q (some p) (some l)).data.Pairwise
      (fun a b => b.sent_at ≤ a.sent_at) ∧
    (historyHandler db q (some p) (some l)).pagination.hasPrev = decide (1 < p) ∧
    (historyHandler db q (some p) (some l)).pagination.hasNext =
      decide (p * l < (historyHandler db q (some p) (some l)).pagination.total) ∧
    (historyHandler db q (some p) (some l)).pagination.pages =
      ((historyHandler db q (some p) (some l)).pagination.total + l - 1) / l ∧
    (∀ k, (historyHandler db q (some p) (some l)).pagination.pages ≤ k ↔
      (historyHandler db q (some p) (some l)).pagination.total ≤ k * l) ∧
    historyHandler db q none none = historyHandler db q (some 1) (some 50) := by
  have hmem : ∀ r ∈ (historyHandler db q (some p) (some l)).data,
      r ∈ db.history.filter (rowMatches db q) := by
    intro r hr
    have h1 : List.Sublist (((filteredSorted db q).drop ((p - 1) * l)).take l)
        ((filteredSorted db q).drop ((p - 1) * l)) := List.take_sublist l _
    have h2 : List.Sublist ((filteredSorted db q).drop ((p - 1) * l))
        (filteredSorted db q) := List.drop_sublist _ _
    have h3 : r ∈ filteredSorted db q := (h1.trans h2).subset hr
    exact (mem_sortDesc r _).mp h3
  refine ⟨?_, ?_, ?_, ?_, rfl, rfl, rfl, ?_, rfl⟩
  · have := List.length_take l ((filteredSorted db q).drop ((p - 1) * l))
    show (((filteredSorted db q).drop ((p - 1) * l)).take l).length ≤ l
    rw [this]
    exact min_le_left _ _
  · intro r hr
    exact (List.mem_filter.mp (hmem r hr)).2
  · intro s hs r hr
    have hm := (List.mem_filter.mp (hmem r hr)).2
    simp only [rowMatches, hs, Bool.and_eq_true] at hm
    obtain ⟨⟨⟨⟨⟨h1, h2⟩, h3⟩, h4⟩, h5⟩, h6⟩ := hm
    simpa [optTest] using h1
  · have hpw := pairwise_sortDesc (db.history.filter (rowMatches db q))
    have h1 : List.Sublist (((filteredSorted db q).drop ((p - 1) * l)).take l)
        (filteredSorted db q) :=
      (List.take_sublist l _).trans (List.drop_sublist _ _)
    exact hpw.sublist h1
  · intro k
    exact ceilDiv_le_iff _ l k hl

/-- Witness for C8 at a concrete store: page 2 with limit 1 over the rows with
status "failed" returns at most one row, `hasPrev` is true, and `pages` is 1. -/
theorem history_pagination_witness :
    (historyHandler exDb { emptyHQuery with status := some "failed" }
      (some 2) (some 1)).data.length ≤ 1 ∧
    (historyHandler exDb { emptyHQuery with status := some "failed" }
      (some 2) (some 1)).pagination.hasPrev = true ∧
    (historyHandler exDb { emptyHQuery with status := some "failed" }
      (some 2) (some 1)).pagination.pages = 1 := by
  have h := history_pagination_spec exDb { emptyHQuery with status := some "failed" }
    2 1 (by decide) (by decide)
  exact ⟨h.1, h.2.2.2.2.1.trans (by decide), by decide⟩

/-- Witness for C9: a two-number valid batch with every dispatch succeeding
answers 200 with summary total 2, sent 2, failed 0. -/
theorem send_summary_witness :
    (sendHandler exDb exEnv ⟨[JsVal.str "+5511999999999", JsVal.str "+5511888888888"],
        some 1, "STATUS123456", none⟩).resp.statusCode = 200 ∧
    (sendHandler exDb exEnv ⟨[JsVal.str "+5511999999999", JsVal.str "+5511888888888"],
        some 1, "STATUS123456", none⟩).resp.summaryOf = some (2, 2, 0) := by
  have h := send_summary exDb exEnv ["+5511999999999", "+5511888888888"] 1
    "STATUS123456" none ⟨1, "TK103"⟩ (by decide) (by decide) (by decide) (by decide)
    (by decide)
  exact ⟨h.1, by decide⟩

end SmsApp
